import Mathlib

set_option maxHeartbeats 1000000

/-!
Verification development for the MusicBrain repository (files test.py and
test3.py).  Python strings are embedded as lists of characters (`Str`);
Python `None` becomes `Option`; JSON dictionaries become structures whose
fields are the keys the code reads.  The embedding is restricted to ASCII
text: Python `str.lower`, `str.strip` and the `re` module's `\s` class are
modelled by `Char.toLower` and the six ASCII whitespace characters that
CPython treats as whitespace.  Python floats are modelled by exact rational
arithmetic.
-/

namespace MusicBrain

/-- A Python string, as a list of characters. -/
abbrev Str := List Char

/-- Coerce a Lean string literal into the embedding's string type. -/
def pyStr (s : String) : Str := s.data

/-- The ASCII whitespace characters stripped by Python `str.strip()` and
matched by the regex class backslash-s. -/
def ws (c : Char) : Bool :=
  c = ' ' || c = '\t' || c = '\n' || c = '\r' || c = '\x0b' || c = '\x0c'

/-- Python `str.lower()` (ASCII fragment). -/
def lower (s : Str) : Str := s.map Char.toLower

/-- Python `str.strip()`: drop leading and trailing whitespace. -/
def strip (s : Str) : Str :=
  ((s.dropWhile ws).reverse.dropWhile ws).reverse

/-- Python's `a in b` test on strings: contiguous-substring containment. -/
def pyIn (a b : Str) : Bool := decide (a <:+: b)

/-- True when every character of the string is whitespace. -/
def allWs (s : Str) : Bool := s.all ws

/-- Python string comparison `a <= b` (lexicographic on code points). -/
def strLe : Str → Str → Bool
  | [], _ => true
  | _ :: _, [] => false
  | a :: as', b :: bs => if a = b then strLe as' bs else decide (a < b)

/-- Python string comparison `a < b` (lexicographic on code points). -/
def strLt : Str → Str → Bool
  | [], [] => false
  | [], _ :: _ => true
  | _ :: _, [] => false
  | a :: as', b :: bs => if a = b then strLt as' bs else decide (a < b)

/-- Python `sep.join(xs)`. -/
def joinSep (sep : Str) : List Str → Str
  | [] => []
  | [x] => x
  | x :: y :: rest => x ++ sep ++ joinSep sep (y :: rest)

/-- Decimal digit character for a value below ten. -/
def digitChar (d : Nat) : Char := Char.ofNat (48 + d)

/-- Decimal digits of a natural number; the fuel argument only needs to be
positive and at least the number of digits, which `n + 1` always is. -/
def natDigitsAux : Nat → Nat → List Char
  | 0, _ => []
  | f + 1, n =>
    if n < 10 then [digitChar n]
    else natDigitsAux f (n / 10) ++ [digitChar (n % 10)]

/-- Decimal rendering of a natural number, as Python `str(n)` produces for a
nonnegative int. -/
def natRepr (n : Nat) : Str := natDigitsAux (n + 1) n

/-- Truthiness of an optional Python string: present and non-empty. -/
def truthyS (o : Option Str) : Bool :=
  match o with
  | some s => decide (s ≠ [])
  | none => false

/-- Truthiness of an optional Python int: present and non-zero. -/
def truthyN (o : Option Nat) : Bool :=
  match o with
  | some n => decide (n ≠ 0)
  | none => false

/-! ## Backtracking model of the regular expressions of `parse_query`

The four patterns of `parse_query` (test.py lines 26-31) all have the shape

  literal-prefix  backslash-s+  quote?  title(.+? lazy)  quote?
  backslash-s+  "by"  backslash-s+  artist(.+ greedy)

(the generic fourth pattern has no literal prefix and no quotes), searched
with `re.search` under `re.IGNORECASE`.  The model spells out Python's
backtracking order explicitly: start positions are scanned left to right;
a greedy piece tries the longest repetition first (`descRange`), a lazy
piece the shortest first (`ascRange1`); the optional quote tries the
consuming alternative first; `.` matches every character except newline. -/

/-- Downward range n, n-1, ..., 1: the order a greedy repetition tries. -/
def descRange (n : Nat) : List Nat := (List.range n).map (fun k => n - k)

/-- Upward range 1, 2, ..., n: the order a lazy repetition tries. -/
def ascRange1 (n : Nat) : List Nat := (List.range n).map (fun k => k + 1)

/-- Match a literal case-insensitively at the head of the input, returning
the rest of the input on success. -/
def dropLitCI : Str → Str → Option Str
  | [], s => some s
  | _ :: _, [] => none
  | l :: ls, c :: cs =>
    if c.toLower = l.toLower then dropLitCI ls cs else none

/-- Length of the whitespace run at the head of the input. -/
def wsRun (s : Str) : Nat := (s.takeWhile ws).length

/-- The alternatives an optional quote tries, consuming first. -/
def quoteOpts (s : Str) : List Str :=
  match s with
  | c :: rest => if c = '\'' || c = '"' then [rest, s] else [s]
  | [] => [s]

/-- Match the trailing part  backslash-s+ "by" backslash-s+ (.+)  of every
pattern at the head of the input, returning the artist group. -/
def matchByTail (s : Str) : Option Str :=
  (descRange (wsRun s)).findSome? fun w =>
    (dropLitCI (pyStr "by") (s.drop w)).bind fun rest =>
      (descRange (wsRun rest)).findSome? fun w2 =>
        let artist := (rest.drop w2).takeWhile (fun c => c ≠ '\n')
        if artist = [] then none else some artist

/-- Attempt the generic pattern  (.+?) backslash-s+ by backslash-s+ (.+)
anchored at the head of the input. -/
def matchP4At (s : Str) : Option (Str × Str) :=
  (ascRange1 s.length).findSome? fun t =>
    let title := s.take t
    if title.all (fun c => c ≠ '\n') then
      (matchByTail (s.drop t)).map (fun artist => (title, artist))
    else none

/-- Attempt, anchored just after a matched literal prefix, the part
backslash-s+ quote? (.+?) quote? backslash-s+ by backslash-s+ (.+)
of the three quoted patterns. -/
def matchPrefAt (s : Str) : Option (Str × Str) :=
  (descRange (wsRun s)).findSome? fun w1 =>
    (quoteOpts (s.drop w1)).findSome? fun r2 =>
      (ascRange1 r2.length).findSome? fun t =>
        let title := r2.take t
        if title.all (fun c => c ≠ '\n') then
          (quoteOpts (r2.drop t)).findSome? fun r4 =>
            (matchByTail r4).map (fun artist => (title, artist))
        else none

/-- The suffixes of the input in left-to-right start order, as `re.search`
scans them. -/
def searchStarts (s : Str) : List Str :=
  (List.range s.length).map (fun i => s.drop i)

/-- Model of `re.search` for the three patterns with a literal prefix. -/
def searchLit (lit : Str) (s : Str) : Option (Str × Str) :=
  (searchStarts s).findSome? fun suf =>
    (dropLitCI lit suf).bind matchPrefAt

/-- Model of `re.search` for the generic fourth pattern. -/
def searchP4 (s : Str) : Option (Str × Str) :=
  (searchStarts s).findSome? matchP4At

/-! ## test.py -/

/-- Result of `parse_query`: the `title`/`artist` dictionary. -/
structure Parsed where
  title : Str
  artist : Option Str
deriving DecidableEq

/-- The exception a modelled function can raise. -/
inductive PyErr where
  | indexError
deriving DecidableEq

/-- First occurrence split, Python `text.split(sep, 1)` restricted to the
case where it yields two parts; `none` when `sep` does not occur, in which
case the Python caller's `parts[1]` raises IndexError. -/
def splitFirst (sep s : Str) : Option (Str × Str) :=
  (List.range (s.length + 1)).findSome? fun k =>
    if sep.isPrefixOf (s.drop k) then some (s.take k, s.drop (k + sep.length))
    else none

/-- test.py `parse_query` (lines 19-43).  The local variable
`t = text.strip().lower()` of the source is never used and is omitted.
The fallback branch checks the separator against the lowercased text but
splits the original text, so a case-mismatched separator reaches
`parts[1]` on a one-element list and raises IndexError. -/
def parse_query (text : Str) : Except PyErr Parsed :=
  match searchLit (pyStr "tell me about") text with
  | some (ti, ar) => .ok ⟨strip ti, some (strip ar)⟩
  | none =>
  match searchLit (pyStr "about") text with
  | some (ti, ar) => .ok ⟨strip ti, some (strip ar)⟩
  | none =>
  match searchLit (pyStr "what can you tell me about") text with
  | some (ti, ar) => .ok ⟨strip ti, some (strip ar)⟩
  | none =>
  match searchP4 text with
  | some (ti, ar) => .ok ⟨strip ti, some (strip ar)⟩
  | none =>
  if pyIn (pyStr " by ") (lower text) then
    match splitFirst (pyStr " by ") text with
    | some (l, r) => .ok ⟨strip l, some (strip r)⟩
    | none => .error .indexError
  else .ok ⟨strip text, none⟩

instance : DecidableEq (Except PyErr Parsed) := fun x y =>
  match x, y with
  | .ok a, .ok b =>
    if h : a = b then .isTrue (by rw [h]) else .isFalse (fun hc => h (by injection hc))
  | .error a, .error b =>
    if h : a = b then .isTrue (by rw [h]) else .isFalse (fun hc => h (by injection hc))
  | .ok _, .error _ => .isFalse (fun hc => by injection hc)
  | .error _, .ok _ => .isFalse (fun hc => by injection hc)

/-! ## difflib.SequenceMatcher, as used by `_similar` (test.py lines 45-46)

`SequenceMatcher(None, a, b).ratio()` is 2M/(len a + len b) where M is the
total size of the matching blocks found by recursively locating the longest
matching block (ties resolved to the earliest start in `a`, then the
earliest start in `b`) and recursing on the parts to its left and right.
The junk heuristics are inert here: no junk predicate is passed and
autojunk only affects second sequences of at least 200 elements, longer
than any string this code compares.  The recursion is written with a fuel
argument `|a| + |b| + 1`; each recursive call strictly decreases the
combined length, so the fuel never runs out. -/

/-- Length of the longest common prefix of two lists. -/
def cpl : List Char → List Char → Nat
  | a :: as', b :: bs => if a = b then cpl as' bs + 1 else 0
  | _, _ => 0

/-- All candidate matching blocks (i, j, size) where size is the length of
the common run of `a` at i and `b` at j, listed with i ascending then j
ascending. -/
def flmCands (a b : List Char) : List (Nat × Nat × Nat) :=
  (List.range a.length).flatMap fun i =>
    (List.range b.length).map fun j => (i, j, cpl (a.drop i) (b.drop j))

/-- Keep the first candidate with a strictly larger size: with the scan
order of `flmCands` this realizes difflib's earliest-in-a, then
earliest-in-b tie resolution. -/
def pickBest : List (Nat × Nat × Nat) → Nat × Nat × Nat → Nat × Nat × Nat
  | [], best => best
  | c :: cs, best => pickBest cs (if best.2.2 < c.2.2 then c else best)

/-- difflib `find_longest_match` over whole sequences (no junk). -/
def flm (a b : List Char) : Nat × Nat × Nat := pickBest (flmCands a b) (0, 0, 0)

/-- Total size of difflib's matching blocks, fuelled. -/
def mtotalF : Nat → List Char → List Char → Nat
  | 0, _, _ => 0
  | f + 1, a, b =>
    let ijk := flm a b
    if ijk.2.2 = 0 then 0
    else
      mtotalF f (a.take ijk.1) (b.take ijk.2.1) + ijk.2.2 +
        mtotalF f (a.drop (ijk.1 + ijk.2.2)) (b.drop (ijk.2.1 + ijk.2.2))

/-- Total size of difflib's matching blocks. -/
def mtotal (a b : List Char) : Nat := mtotalF (a.length + b.length + 1) a b

/-- difflib `SequenceMatcher.ratio()`: 2M over the combined length, 1 when
both sequences are empty. -/
def ratioOf (a b : List Char) : ℚ :=
  if a.length + b.length = 0 then 1
  else (2 * mtotal a b : ℚ) / (a.length + b.length : ℚ)

/-- test.py `_similar` (lines 45-46): ratio of the lowercased strings.
The `a or ""` guards only matter for a `None` argument, which no caller
passes. -/
def similar (a b : Str) : ℚ := ratioOf (lower a) (lower b)

/-! ## test.py `choose_best_recording` (lines 62-81) -/

/-- A search-result recording, with the fields the scorer reads: the title
(defaulted to "" when missing) and the name field of each artist-credit
entry (`none` when the entry has no name). -/
structure Candidate where
  title : Str
  artistCredit : List (Option Str)
deriving DecidableEq

/-- The names of the artist-credit entries joined by spaces, as
`" ".join([ac.get("name","") for ac in r.get("artist-credit", [])])`. -/
def artistNames (r : Candidate) : Str :=
  joinSep (pyStr " ") (r.artistCredit.map (fun ac => ac.getD []))

/-- The score of one candidate: 0.6 times the title similarity plus 0.4
times the artist similarity, the latter only when the artist hypothesis
is truthy — the source guard `if artist:` (test.py line 75) skips the
term both for None and for the empty string. -/
def score (title : Str) (artist : Option Str) (r : Candidate) : ℚ :=
  0.6 * similar title r.title +
    match artist with
    | some a => if a ≠ [] then 0.4 * similar a (artistNames r) else 0
    | none => 0

/-- The scan of `choose_best_recording`: keep the current best and its
score, replacing them only on a strictly greater score. -/
def chooseBestAux (title : Str) (artist : Option Str) :
    List Candidate → Option Candidate → ℚ → Option Candidate
  | [], best, _ => best
  | r :: rest, best, bestScore =>
    if bestScore < score title artist r then
      chooseBestAux title artist rest (some r) (score title artist r)
    else chooseBestAux title artist rest best bestScore

/-- test.py `choose_best_recording` (lines 62-81), starting from no best
and a best score of 0.0. -/
def choose_best_recording (recordings : List Candidate) (title : Str)
    (artist : Option Str) : Option Candidate :=
  chooseBestAux title artist recordings none 0

/-! ## test.py `extract_credits` (lines 94-137) -/

/-- One element of a raw `releases` list: its title and date fields,
`none` when the key is absent or null. -/
structure Release where
  title : Option Str
  date : Option Str
deriving DecidableEq

/-- The nested artist JSON object of a relation.  `nonEmptyDict` records
whether the object has at least one key, which is what the Python
truthiness test `if rel.get("artist"):` checks; `name` is the value of its
name key when present. -/
structure ArtistObj where
  name : Option Str
  nonEmptyDict : Bool
deriving DecidableEq

/-- One element of a raw relation list, with the four fields the code
reads.  A field is `none` when the key is absent or null. -/
structure Relation where
  type : Option Str
  artist : Option ArtistObj
  targetCredit : Option Str
  target : Option Str
deriving DecidableEq

/-- A raw recording entity as fetched from the catalog, with the fields
`extract_credits` reads.  `artistCredit` holds the name field of each
artist-credit entry. -/
structure RawRecording where
  title : Option Str
  length : Option Nat
  artistCredit : List (Option Str)
  releases : Option (List Release)
  relations : Option (List Relation)
  relationList : Option (List Relation)
deriving DecidableEq

/-- The canonical credits dictionary: all four role keys are always
present, each bound to a list. -/
structure Credits where
  composer : List Str
  lyricist : List Str
  producer : List Str
  performer : List Str
deriving DecidableEq

/-- The normalized record built by `extract_credits`.  `mbid` models the
`_mbid` key that `retrieve_with_choice` (test3.py line 165) attaches
afterwards; `extract_credits` itself leaves it absent. -/
structure Info where
  title : Option Str
  length_ms : Option Nat
  artists : List Str
  release_title : Option Str
  release_date : Option Str
  credits : Credits
  mbid : Option Str
deriving DecidableEq

/-- The sort key of a release: its date, with a falsy (missing, null or
empty) date replaced by the sentinel "9999-99-99" (test.py line 107). -/
def relKey (r : Release) : Str :=
  match r.date with
  | some d => if d = [] then pyStr "9999-99-99" else d
  | none => pyStr "9999-99-99"

/-- Comparison used to sort releases by key. -/
def relLe (r1 r2 : Release) : Prop := strLe (relKey r1) (relKey r2) = true

instance : DecidableRel relLe := fun r1 r2 => by unfold relLe; infer_instance

/-- The relation list of the entity: `relations` if truthy, else the
legacy `relation-list`, else empty (test.py line 114). -/
def effRelations (rec : RawRecording) : List Relation :=
  let r1 := rec.relations.getD []
  if r1 ≠ [] then r1 else rec.relationList.getD []

/-- The chain of `elif` fields tried when the nested artist object is
absent or falsy: the target-credit string if truthy, else the target
string if truthy, else nothing. -/
def elifChain (rel : Relation) : Option Str :=
  if truthyS rel.targetCredit then rel.targetCredit
  else if truthyS rel.target then rel.target
  else none

/-- Name resolution of one relation (test.py lines 119-127): when the
artist object is present and truthy its name field is used, without
falling through; otherwise the elif chain runs.  The final truthiness
test `if not artist_name: continue` is folded in: an unresolved or empty
name yields `none`. -/
def resolveName (rel : Relation) : Option Str :=
  let an : Option Str :=
    match rel.artist with
    | some a => if a.nonEmptyDict then a.name else elifChain rel
    | none => elifChain rel
  match an with
  | some n => if n = [] then none else some n
  | none => none

/-- The lowercased type label of a relation, empty when absent. -/
def relTypeL (rel : Relation) : Str := lower (rel.type.getD [])

/-- Keyword test of the composer role (test.py line 128). -/
def kwComposer (rtype : Str) : Bool :=
  pyIn (pyStr "compose") rtype || pyIn (pyStr "composer") rtype ||
    pyIn (pyStr "written") rtype

/-- Keyword test of the lyricist role (test.py line 130). -/
def kwLyricist (rtype : Str) : Bool := pyIn (pyStr "lyric") rtype

/-- Keyword test of the producer role (test.py line 132). -/
def kwProducer (rtype : Str) : Bool :=
  pyIn (pyStr "produce") rtype || pyIn (pyStr "producer") rtype

/-- Keyword test of the performer role (test.py line 134). -/
def kwPerformer (rtype : Str) : Bool :=
  pyIn (pyStr "performer") rtype || pyIn (pyStr "perform") rtype

/-- Append the name when the role matched. -/
def addRole (b : Bool) (n : Str) (l : List Str) : List Str :=
  if b then l ++ [n] else l

/-- One iteration of the relation loop of `extract_credits` (test.py
lines 116-135): resolve a name, skip silently when there is none, and
append it to every role list whose keyword test matches the type label —
the four tests are independent `if`s. -/
def creditStep (cs : Credits) (rel : Relation) : Credits :=
  match resolveName rel with
  | none => cs
  | some n =>
    let rtype := relTypeL rel
    { composer := addRole (kwComposer rtype) n cs.composer
      lyricist := addRole (kwLyricist rtype) n cs.lyricist
      producer := addRole (kwProducer rtype) n cs.producer
      performer := addRole (kwPerformer rtype) n cs.performer }

/-- test.py `extract_credits` (lines 94-137). -/
def extract_credits (rec : RawRecording) : Info :=
  let artists : List Str := rec.artistCredit.filterMap fun ac =>
    match ac with
    | some n => if n = [] then none else some n
    | none => none
  let rels : List Release := rec.releases.getD []
  let sorted := List.insertionSort relLe rels
  let release_title : Option Str :=
    if rels = [] then none else (sorted.head?).bind (fun r => r.title)
  let release_date : Option Str :=
    if rels = [] then none else (sorted.head?).bind (fun r => r.date)
  let credits := (effRelations rec).foldl creditStep ⟨[], [], [], []⟩
  { title := rec.title
    length_ms := rec.length
    artists := artists
    release_title := release_title
    release_date := release_date
    credits := credits
    mbid := none }

/-! ## test3.py -/

/-- test3.py `deterministic_producer_check` (lines 172-185).  The leading
`if not info: return None` guard tests dictionary truthiness; an `Info`
record models a dictionary that always has its keys, hence is truthy, so
the guard never fires here.  The first pass returns true on a trimmed
case-insensitive equality with a truthy producer name, the second on a
substring hit in a truthy lowercased producer name; otherwise false. -/
def deterministic_producer_check (info : Info) (artist_query : Str) :
    Option Bool :=
  let producers := info.credits.producer
  if producers = [] then none
  else
    let aq := strip (lower artist_query)
    if producers.any (fun p => decide (p ≠ []) && decide (strip (lower p) = aq)) then
      some true
    else if producers.any (fun p => decide (p ≠ []) && pyIn aq (lower p)) then
      some true
    else some false

/-- Modelled from the spec: the single-pass variant of the Deterministic
Fact Checker that section 4.5 discusses — identical to
`deterministic_producer_check` except that the exact-equality pass is
dropped and only the substring pass runs. -/
def deterministic_producer_check_single (info : Info) (artist_query : Str) :
    Option Bool :=
  let producers := info.credits.producer
  if producers = [] then none
  else
    let aq := strip (lower artist_query)
    if producers.any (fun p => decide (p ≠ []) && pyIn aq (lower p)) then
      some true
    else some false

/-- Python `for v in vals: if v and v not in seen` deduplication of
test3.py lines 207-211: keep truthy values in first-seen order. -/
def dedupeKeep : List Str → List Str → List Str
  | [], _ => []
  | v :: vs, seen =>
    if v ≠ [] ∧ v ∉ seen then v :: dedupeKeep vs (v :: seen)
    else dedupeKeep vs seen

/-- The title shown on the title line: the title if truthy, else the
placeholder (test3.py line 190). -/
def pyTitleOf (info : Info) : Str :=
  match info.title with
  | some s => if s = [] then pyStr "Unknown title" else s
  | none => pyStr "Unknown title"

/-- The title line of the fact sheet. -/
def titleLine (info : Info) : Str := pyStr "Title: " ++ pyTitleOf info

/-- The artist line of the fact sheet. -/
def artistLine (info : Info) : Str :=
  pyStr "Artist(s): " ++ joinSep (pyStr ", ") info.artists

/-- The release line of the fact sheet: release title, with the date in
parentheses when the date is truthy. -/
def releaseLine (info : Info) : Str :=
  let rel := if truthyS info.release_title then info.release_title.getD [] else []
  let date := if truthyS info.release_date then info.release_date.getD [] else []
  pyStr "Release: " ++ (if date ≠ [] then rel ++ pyStr " (" ++ date ++ pyStr ")" else rel)

/-- The duration line of the fact sheet: whole seconds by floor
division. -/
def durationLine (info : Info) : Str :=
  pyStr "Duration_seconds: " ++ natRepr (info.length_ms.getD 0 / 1000)

/-- A credit-role line: the capitalized role tag followed by the
deduplicated truthy values joined by commas. -/
def roleLine (tag : Str) (vals : List Str) : Str :=
  tag ++ joinSep (pyStr ", ") (dedupeKeep vals [])

/-- The identifier line of the fact sheet. -/
def mbidLine (info : Info) : Str := pyStr "MBID: " ++ info.mbid.getD []

/-- test3.py `build_context_from_info` (lines 188-215), as the list of
lines the source joins with newlines: the title line always, then one
line for each of artists, release, duration, the four credit roles and
the identifier whenever the corresponding field is truthy. -/
def build_context_from_info (info : Info) : List Str :=
  [titleLine info]
    ++ (if info.artists ≠ [] then [artistLine info] else [])
    ++ (if truthyS info.release_title || truthyS info.release_date then
          [releaseLine info] else [])
    ++ (if truthyN info.length_ms then [durationLine info] else [])
    ++ (if info.credits.composer ≠ [] then
          [roleLine (pyStr "Composer: ") info.credits.composer] else [])
    ++ (if info.credits.lyricist ≠ [] then
          [roleLine (pyStr "Lyricist: ") info.credits.lyricist] else [])
    ++ (if info.credits.producer ≠ [] then
          [roleLine (pyStr "Producer: ") info.credits.producer] else [])
    ++ (if info.credits.performer ≠ [] then
          [roleLine (pyStr "Performer: ") info.credits.performer] else [])
    ++ (if truthyS info.mbid then [mbidLine info] else [])

/-! ## Lemmas about `strip` -/

theorem dropWhile_head_false {p : Char → Bool} :
    ∀ (l : Str) {c : Char} {t : Str}, l.dropWhile p = c :: t → p c = false := by
  intro l
  induction l with
  | nil => intro c t h; simp [List.dropWhile] at h
  | cons a l ih =>
    intro c t h
    by_cases hpa : p a = true
    · rw [List.dropWhile_cons_of_pos hpa] at h
      exact ih h
    · rw [List.dropWhile_cons_of_neg hpa] at h
      cases h
      exact Bool.eq_false_iff.mpr hpa

theorem dropWhile_of_head_false {p : Char → Bool} {c : Char} {t : Str}
    (h : p c = false) : (c :: t).dropWhile p = c :: t :=
  List.dropWhile_cons_of_neg (by rw [h]; exact Bool.false_ne_true)

theorem dropWhile_dropWhile {p : Char → Bool} (l : Str) :
    (l.dropWhile p).dropWhile p = l.dropWhile p := by
  cases h : l.dropWhile p with
  | nil => rfl
  | cons c t => exact dropWhile_of_head_false (dropWhile_head_false l h)

theorem strip_prefix_dropWhile (s : Str) : strip s <+: s.dropWhile ws := by
  unfold strip
  have h : ((s.dropWhile ws).reverse.dropWhile ws) <:+ (s.dropWhile ws).reverse :=
    List.dropWhile_suffix ws
  have h2 :
      (((s.dropWhile ws).reverse.dropWhile ws).reverse).reverse <:+
        (s.dropWhile ws).reverse := by
    rwa [List.reverse_reverse]
  exact List.reverse_suffix.mp h2

theorem strip_substring (s : Str) : strip s <:+: s :=
  (strip_prefix_dropWhile s).isInfix.trans (List.dropWhile_suffix ws).isInfix

theorem dropWhile_ws_strip (s : Str) : (strip s).dropWhile ws = strip s := by
  cases h : strip s with
  | nil => rfl
  | cons c t =>
    have hpre := strip_prefix_dropWhile s
    rw [h] at hpre
    obtain ⟨u, hu⟩ := hpre
    have hc : ws c = false := by
      have hdd : (s.dropWhile ws).dropWhile ws = s.dropWhile ws := dropWhile_dropWhile s
      rw [← hu] at hdd
      exact dropWhile_head_false (c :: t ++ u) hdd
    exact dropWhile_of_head_false hc

theorem strip_idem (s : Str) : strip (strip s) = strip s := by
  have h1 : (strip s).reverse = (s.dropWhile ws).reverse.dropWhile ws := by
    unfold strip; rw [List.reverse_reverse]
  show (((strip s).dropWhile ws).reverse.dropWhile ws).reverse = strip s
  rw [dropWhile_ws_strip, h1, dropWhile_dropWhile, ← h1, List.reverse_reverse]

/-! ## Claim C9: the two-pass fact checker equals the single-pass variant -/

/-- Claim C9: for every record and claim string, the two-pass Deterministic
Fact Checker (exact trimmed case-insensitive equality pass, then
case-insensitive substring pass) returns the same tri-state result as the
single-pass variant that performs only the substring test, because a string
that equals the trimmed claim also contains it as a substring. -/
theorem claim_C9 (info : Info) (q : Str) :
    deterministic_producer_check info q =
      deterministic_producer_check_single info q := by
  unfold deterministic_producer_check deterministic_producer_check_single
  by_cases hp : info.credits.producer = []
  · simp [hp]
  · simp only [if_neg hp]
    by_cases he : (info.credits.producer.any fun p =>
        decide (p ≠ []) && decide (strip (lower p) = strip (lower q))) = true
    · rw [if_pos he]
      have hs : (info.credits.producer.any fun p =>
          decide (p ≠ []) && pyIn (strip (lower q)) (lower p)) = true := by
        rw [List.any_eq_true] at he ⊢
        obtain ⟨p, hmem, hpe⟩ := he
        rw [Bool.and_eq_true] at hpe
        refine ⟨p, hmem, ?_⟩
        rw [Bool.and_eq_true]
        refine ⟨hpe.1, ?_⟩
        have heq : strip (lower p) = strip (lower q) :=
          of_decide_eq_true hpe.2
        unfold pyIn
        rw [decide_eq_true_iff, ← heq]
        exact strip_substring (lower p)
      rw [if_pos hs]
    · rw [if_neg he]

/-! ## Claim C1: tri-state result of the fact checker -/

/-- Claim C1 (amended): the checker returns indeterminate iff the
producer-credit list is empty; otherwise it returns true iff some
non-empty producer name, lowercased and trimmed, equals the lowercased
trimmed claim or contains the lowercased trimmed claim as a substring,
and false iff no non-empty producer name does.  (The original claim,
which did not restrict to non-empty producer names, fails: an
empty-string producer name is skipped by both passes.) -/
theorem ite_some_bool (E S : Bool) :
    (if E = true then some true else if S = true then some true else some false) =
      some (E || S) := by
  cases E <;> cases S <;> rfl

theorem claim_C1 (info : Info) (q : Str) :
    (deterministic_producer_check info q = none ↔
      info.credits.producer = []) ∧
    (info.credits.producer ≠ [] →
      ((deterministic_producer_check info q = some true ↔
          ∃ p ∈ info.credits.producer, p ≠ [] ∧
            (strip (lower p) = strip (lower q) ∨
              strip (lower q) <:+: lower p)) ∧
        (deterministic_producer_check info q = some false ↔
          ∀ p ∈ info.credits.producer, p ≠ [] →
            ¬(strip (lower p) = strip (lower q) ∨
              strip (lower q) <:+: lower p)))) := by
  unfold deterministic_producer_check
  by_cases hp : info.credits.producer = []
  · simp [hp]
  · simp only [if_neg hp]
    rw [ite_some_bool]
    have hE : (info.credits.producer.any fun p =>
        decide (p ≠ []) && decide (strip (lower p) = strip (lower q))) = true ↔
        ∃ p ∈ info.credits.producer, p ≠ [] ∧
          strip (lower p) = strip (lower q) := by
      rw [List.any_eq_true]
      constructor
      · rintro ⟨p, hmem, hb⟩
        rw [Bool.and_eq_true] at hb
        exact ⟨p, hmem, of_decide_eq_true hb.1, of_decide_eq_true hb.2⟩
      · rintro ⟨p, hmem, h1, h2⟩
        refine ⟨p, hmem, ?_⟩
        rw [Bool.and_eq_true]
        exact ⟨decide_eq_true h1, decide_eq_true h2⟩
    have hS : (info.credits.producer.any fun p =>
        decide (p ≠ []) && pyIn (strip (lower q)) (lower p)) = true ↔
        ∃ p ∈ info.credits.producer, p ≠ [] ∧
          strip (lower q) <:+: lower p := by
      rw [List.any_eq_true]
      constructor
      · rintro ⟨p, hmem, hb⟩
        rw [Bool.and_eq_true] at hb
        exact ⟨p, hmem, of_decide_eq_true hb.1, of_decide_eq_true hb.2⟩
      · rintro ⟨p, hmem, h1, h2⟩
        refine ⟨p, hmem, ?_⟩
        rw [Bool.and_eq_true]
        exact ⟨decide_eq_true h1, decide_eq_true h2⟩
    constructor
    · constructor
      · intro h; exact absurd h (Option.some_ne_none _)
      · intro h; exact absurd h hp
    · intro _
      constructor
      · rw [Option.some_inj, Bool.or_eq_true, hE, hS]
        constructor
        · rintro (⟨p, hm, h1, h2⟩ | ⟨p, hm, h1, h2⟩)
          exacts [⟨p, hm, h1, Or.inl h2⟩, ⟨p, hm, h1, Or.inr h2⟩]
        · rintro ⟨p, hm, h1, h2 | h2⟩
          exacts [Or.inl ⟨p, hm, h1, h2⟩, Or.inr ⟨p, hm, h1, h2⟩]
      · rw [Option.some_inj, Bool.or_eq_false_iff]
        constructor
        · rintro ⟨hEf, hSf⟩ p hm h1 hcon
          rcases hcon with h2 | h2
          · exact Bool.eq_false_iff.mp hEf (hE.mpr ⟨p, hm, h1, h2⟩)
          · exact Bool.eq_false_iff.mp hSf (hS.mpr ⟨p, hm, h1, h2⟩)
        · intro h
          constructor
          · rw [Bool.eq_false_iff]
            intro hEt
            obtain ⟨p, hm, h1, h2⟩ := hE.mp hEt
            exact h p hm h1 (Or.inl h2)
          · rw [Bool.eq_false_iff]
            intro hSt
            obtain ⟨p, hm, h1, h2⟩ := hS.mp hSt
            exact h p hm h1 (Or.inr h2)

/-- Witness for claim C1: a producer list containing "Rick Rubin" makes
the checker answer true to the padded claim " rick rubin ". -/
theorem claim_C1_witness :
    deterministic_producer_check
      ⟨none, none, [], none, none, ⟨[], [], [pyStr "Rick Rubin"], []⟩, none⟩
      (pyStr " rick rubin ") = some true := by
  have h := (claim_C1
    ⟨none, none, [], none, none, ⟨[], [], [pyStr "Rick Rubin"], []⟩, none⟩
    (pyStr " rick rubin ")).2 (by decide)
  exact h.1.mpr ⟨pyStr "Rick Rubin", by decide, by decide, Or.inl (by decide)⟩

/-! ## Claims C2 and C10: parse_query -/

theorem ws_toLower {c : Char} (h : ws c = true) : c.toLower = c := by
  unfold ws at h
  simp only [Bool.or_eq_true, decide_eq_true_eq] at h
  rcases h with ((((rfl | rfl) | rfl) | rfl) | rfl) | rfl <;> decide

theorem allWs_drop {s : Str} (h : allWs s = true) (n : Nat) :
    allWs (s.drop n) = true := by
  unfold allWs at *
  rw [List.all_eq_true] at *
  intro x hx
  exact h x ((List.drop_suffix n s).subset hx)

theorem dropLitCI_cons_none {c : Char} {ls s : Str}
    (hc : ws c.toLower = false) (h : allWs s = true) :
    dropLitCI (c :: ls) s = none := by
  cases s with
  | nil => rfl
  | cons d ds =>
    have hd : ws d = true := by
      unfold allWs at h
      rw [List.all_eq_true] at h
      exact h d (by simp)
    have hne : ¬(d.toLower = c.toLower) := by
      intro heq
      rw [ws_toLower hd] at heq
      rw [heq] at hd
      rw [hd] at hc
      exact absurd hc (by decide)
    unfold dropLitCI
    rw [if_neg hne]

theorem matchByTail_none_of_allWs {s : Str} (h : allWs s = true) :
    matchByTail s = none := by
  unfold matchByTail
  rw [List.findSome?_eq_none_iff]
  intro w _
  have hby : pyStr "by" = 'b' :: pyStr "y" := rfl
  rw [hby, dropLitCI_cons_none (by decide) (allWs_drop h w)]
  rfl

theorem matchP4At_none_of_allWs {s : Str} (h : allWs s = true) :
    matchP4At s = none := by
  unfold matchP4At
  rw [List.findSome?_eq_none_iff]
  intro t _
  have hmb := matchByTail_none_of_allWs (allWs_drop h t)
  simp [hmb]

theorem searchP4_none_of_allWs {s : Str} (h : allWs s = true) :
    searchP4 s = none := by
  unfold searchP4
  rw [List.findSome?_eq_none_iff]
  intro suf hsuf
  simp only [searchStarts, List.mem_map] at hsuf
  obtain ⟨i, _, rfl⟩ := hsuf
  exact matchP4At_none_of_allWs (allWs_drop h i)

theorem searchLit_none_of_allWs {c : Char} {ls text : Str}
    (hc : ws c.toLower = false) (h : allWs text = true) :
    searchLit (c :: ls) text = none := by
  unfold searchLit
  rw [List.findSome?_eq_none_iff]
  intro suf hsuf
  simp only [searchStarts, List.mem_map] at hsuf
  obtain ⟨i, _, rfl⟩ := hsuf
  rw [dropLitCI_cons_none hc (allWs_drop h i)]
  rfl

theorem strip_eq_nil_of_allWs {s : Str} (h : allWs s = true) : strip s = [] := by
  unfold strip
  have h1 : s.dropWhile ws = [] := by
    rw [List.dropWhile_eq_nil_iff]
    unfold allWs at h
    rw [List.all_eq_true] at h
    exact h
  rw [h1]
  rfl

theorem pyIn_by_false_of_allWs {s : Str} (h : allWs s = true) :
    pyIn (pyStr " by ") (lower s) = false := by
  unfold pyIn
  rw [decide_eq_false_iff_not]
  intro hinf
  have hb : 'b' ∈ lower s := hinf.subset (by decide)
  unfold lower at hb
  rw [List.mem_map] at hb
  obtain ⟨c, hc, hcb⟩ := hb
  unfold allWs at h
  rw [List.all_eq_true] at h
  have hwc := h c hc
  rw [ws_toLower hwc] at hcb
  rw [hcb] at hwc
  exact absurd hwc (by decide)

/-- Claim C2 (amended): for every input on which `parse_query` returns, the
title is a non-null trimmed string (it equals its own strip), and every
whitespace-only input yields the empty title with no artist, the outcome
the caller reports as "could not extract a title".  (The original claim's
converse fails: some non-whitespace inputs also yield an empty title.) -/
theorem claim_C2 :
    (∀ (text : Str) (h : Parsed), parse_query text = .ok h →
      strip h.title = h.title) ∧
    (∀ text : Str, allWs text = true → parse_query text = .ok ⟨[], none⟩) := by
  constructor
  · intro text h hok
    unfold parse_query at hok
    repeat' split at hok
    all_goals first
      | exact Except.noConfusion hok
      | (injection hok with h2; subst h2; exact strip_idem _)
  · intro text htext
    have h1 : searchLit (pyStr "tell me about") text = none := by
      have : searchLit ('t' :: pyStr "ell me about") text = none :=
        searchLit_none_of_allWs (by decide) htext
      exact this
    have h2 : searchLit (pyStr "about") text = none := by
      have : searchLit ('a' :: pyStr "bout") text = none :=
        searchLit_none_of_allWs (by decide) htext
      exact this
    have h3 : searchLit (pyStr "what can you tell me about") text = none := by
      have : searchLit ('w' :: pyStr "hat can you tell me about") text = none :=
        searchLit_none_of_allWs (by decide) htext
      exact this
    have h4 : searchP4 text = none := searchP4_none_of_allWs htext
    have h5 : pyIn (pyStr " by ") (lower text) = false :=
      pyIn_by_false_of_allWs htext
    unfold parse_query
    rw [h1, h2, h3, h4]
    simp only [h5, Bool.false_eq_true, if_false]
    rw [strip_eq_nil_of_allWs htext]

/-- Witness for claim C2: a plain word is returned trimmed, and a
whitespace-only input yields the empty title. -/
theorem claim_C2_witness :
    strip (pyStr "hello") = pyStr "hello" ∧
      parse_query (pyStr "  ") = .ok ⟨[], none⟩ := by
  constructor
  · exact claim_C2.1 (pyStr "hello") ⟨pyStr "hello", none⟩ (by decide)
  · exact claim_C2.2 (pyStr "  ") (by decide)

/-- Counterexample to claim C2 as stated: the input " by x" is not empty
or whitespace-only, yet `parse_query` returns the empty title, so the
caller sees "could not extract a title" on a non-whitespace input. -/
theorem claim_C2_counterexample :
    parse_query (pyStr " by x") = .ok ⟨[], some (pyStr "x")⟩ ∧
      allWs (pyStr " by x") = false := by
  exact ⟨by decide, by decide⟩

/-- Claim C10 (refuted by the code, supporting the code-bug verdict): on
the input " BY x" the fallback branch of `parse_query` finds the
separator in the lowercased text but the case-sensitive split yields a
single part, so `parts[1]` raises IndexError instead of returning a
title/artist dictionary. -/
theorem claim_C10 : parse_query (pyStr " BY x") = .error .indexError := by
  decide

/-- Counterexample to claim C1 as stated: the record whose only producer
credit is the empty string, with the empty claim, has a producer name
whose lowercased trimmed form equals the lowercased trimmed claim, yet
the checker returns false rather than true. -/
theorem claim_C1_counterexample :
    deterministic_producer_check
        ⟨none, none, [], none, none, ⟨[], [], [[]], []⟩, none⟩ [] = some false ∧
      ∃ p ∈ ([[]] : List Str), strip (lower p) = strip (lower ([] : Str)) := by
  constructor
  · rfl
  · exact ⟨[], by simp, rfl⟩

/-! ## Claims C3 and C8: the candidate scorer -/

theorem cpl_le_left : ∀ (a b : List Char), cpl a b ≤ a.length := by
  intro a
  induction a with
  | nil => intro b; cases b <;> simp [cpl]
  | cons x xs ih =>
    intro b
    cases b with
    | nil => simp [cpl]
    | cons y ys =>
      unfold cpl
      split
      · have := ih ys
        simp only [List.length_cons]
        omega
      · simp

theorem cpl_le_right : ∀ (a b : List Char), cpl a b ≤ b.length := by
  intro a
  induction a with
  | nil => intro b; cases b <;> simp [cpl]
  | cons x xs ih =>
    intro b
    cases b with
    | nil => simp [cpl]
    | cons y ys =>
      unfold cpl
      split
      · have := ih ys
        simp only [List.length_cons]
        omega
      · simp

theorem pickBest_eq_or_mem :
    ∀ (l : List (Nat × Nat × Nat)) (d : Nat × Nat × Nat),
      pickBest l d = d ∨ pickBest l d ∈ l := by
  intro l
  induction l with
  | nil => intro d; exact Or.inl rfl
  | cons c cs ih =>
    intro d
    unfold pickBest
    split
    · rcases ih c with h | h
      · exact Or.inr (by rw [h]; exact List.mem_cons_self c cs)
      · exact Or.inr (List.mem_cons_of_mem c h)
    · rcases ih d with h | h
      · exact Or.inl h
      · exact Or.inr (List.mem_cons_of_mem c h)

theorem flmCands_bounds {a b : List Char} {i j k : Nat}
    (h : (i, j, k) ∈ flmCands a b) :
    i < a.length ∧ j < b.length ∧ k ≤ a.length - i ∧ k ≤ b.length - j := by
  unfold flmCands at h
  rw [List.mem_flatMap] at h
  obtain ⟨i', hi', hmem⟩ := h
  rw [List.mem_map] at hmem
  obtain ⟨j', hj', heq⟩ := hmem
  obtain ⟨rfl, rfl, rfl⟩ : i' = i ∧ j' = j ∧ cpl (a.drop i') (b.drop j') = k := by
    injection heq with e1 e2
    injection e2 with e2 e3
    exact ⟨e1, e2, e3⟩
  rw [List.mem_range] at hi' hj'
  refine ⟨hi', hj', ?_, ?_⟩
  · have := cpl_le_left (a.drop i') (b.drop j')
    rwa [List.length_drop] at this
  · have := cpl_le_right (a.drop i') (b.drop j')
    rwa [List.length_drop] at this

theorem flm_bounds {a b : List Char} {i j k : Nat}
    (h : flm a b = (i, j, k)) (hk : k ≠ 0) :
    i + k ≤ a.length ∧ j + k ≤ b.length := by
  unfold flm at h
  rcases pickBest_eq_or_mem (flmCands a b) (0, 0, 0) with he | hm
  · rw [h] at he
    injection he with e1 e2
    injection e2 with e2 e3
    exact absurd e3 hk
  · rw [h] at hm
    have := flmCands_bounds hm
    omega

theorem mtotalF_le : ∀ (f : Nat) (a b : List Char),
    mtotalF f a b ≤ min a.length b.length := by
  intro f
  induction f with
  | zero => intro a b; simp [mtotalF]
  | succ f ih =>
    intro a b
    unfold mtotalF
    rcases hflm : flm a b with ⟨i, j, k⟩
    dsimp only
    by_cases hk : k = 0
    · simp [hk]
    · rw [if_neg hk]
      have hb := flm_bounds hflm hk
      have t1 := ih (a.take i) (b.take j)
      have t2 := ih (a.drop (i + k)) (b.drop (j + k))
      rw [List.length_take, List.length_take] at t1
      rw [List.length_drop, List.length_drop] at t2
      omega

theorem ratioOf_nonneg (a b : List Char) : 0 ≤ ratioOf a b := by
  unfold ratioOf
  split
  · norm_num
  · apply div_nonneg <;> positivity

theorem ratioOf_le_one (a b : List Char) : ratioOf a b ≤ 1 := by
  unfold ratioOf
  split
  · norm_num
  · rename_i hne
    have hpos : (0 : ℚ) < (a.length + b.length : ℚ) := by
      have : 0 < a.length + b.length := Nat.pos_of_ne_zero hne
      exact_mod_cast this
    rw [div_le_one hpos]
    have hm : 2 * mtotal a b ≤ a.length + b.length := by
      have := mtotalF_le (a.length + b.length + 1) a b
      unfold mtotal
      omega
    exact_mod_cast hm

theorem similar_nonneg (a b : Str) : 0 ≤ similar a b := ratioOf_nonneg _ _

theorem similar_le_one (a b : Str) : similar a b ≤ 1 := ratioOf_le_one _ _

theorem score_nonneg (t : Str) (a : Option Str) (r : Candidate) :
    0 ≤ score t a r := by
  unfold score
  have h1 : (0 : ℚ) ≤ 0.6 * similar t r.title := by
    have := similar_nonneg t r.title
    nlinarith
  cases a with
  | none => simpa using h1
  | some s =>
    dsimp only
    by_cases hs : s ≠ []
    · have h2 : (0 : ℚ) ≤ 0.4 * similar s (artistNames r) := by
        have := similar_nonneg s (artistNames r)
        nlinarith
      rw [if_pos hs]
      nlinarith
    · rw [if_neg hs]
      simpa using h1

theorem chooseBestAux_none_iff (t : Str) (a : Option Str) :
    ∀ (l : List Candidate) (best : Option Candidate) (bs : ℚ),
      chooseBestAux t a l best bs = none ↔
        (best = none ∧ ∀ r ∈ l, score t a r ≤ bs) := by
  intro l
  induction l with
  | nil => intro best bs; simp [chooseBestAux]
  | cons r rest ih =>
    intro best bs
    unfold chooseBestAux
    split
    · rename_i hlt
      rw [ih]
      constructor
      · rintro ⟨h, -⟩
        exact absurd h (by simp)
      · rintro ⟨-, hall⟩
        have := hall r (List.mem_cons_self r rest)
        exact absurd this (not_le.mpr hlt)
    · rename_i hnlt
      rw [ih]
      constructor
      · rintro ⟨hb, hall⟩
        refine ⟨hb, ?_⟩
        intro x hx
        rcases List.mem_cons.mp hx with rfl | hx'
        · exact not_lt.mp hnlt
        · exact hall x hx'
      · rintro ⟨hb, hall⟩
        exact ⟨hb, fun x hx => hall x (List.mem_cons_of_mem _ hx)⟩

theorem chooseBestAux_spec (t : Str) (a : Option Str) :
    ∀ (l : List Candidate) (best : Option Candidate) (bs : ℚ) (c : Candidate),
      chooseBestAux t a l best bs = some c →
        (best = some c ∧ ∀ r ∈ l, score t a r ≤ bs) ∨
        (∃ l1 l2, l = l1 ++ c :: l2 ∧ bs < score t a c ∧
          (∀ r ∈ l1, score t a r < score t a c) ∧
          (∀ r ∈ l, score t a r ≤ score t a c)) := by
  intro l
  induction l with
  | nil => intro best bs c h; exact Or.inl ⟨h, by simp⟩
  | cons r rest ih =>
    intro best bs c h
    unfold chooseBestAux at h
    split at h
    · rename_i hlt
      rcases ih _ _ _ h with ⟨hb, hall⟩ | ⟨l1, l2, hsplit, hbs, hprev, hallle⟩
      · injection hb with hb'
        subst hb'
        refine Or.inr ⟨[], rest, rfl, hlt, by simp, ?_⟩
        intro x hx
        rcases List.mem_cons.mp hx with rfl | hx'
        · exact le_refl _
        · exact hall x hx'
      · refine Or.inr ⟨r :: l1, l2, by rw [hsplit]; rfl, lt_trans hlt hbs, ?_, ?_⟩
        · intro x hx
          rcases List.mem_cons.mp hx with rfl | hx'
          · exact hbs
          · exact hprev x hx'
        · intro x hx
          rcases List.mem_cons.mp hx with rfl | hx'
          · exact le_of_lt hbs
          · exact hallle x hx'
    · rename_i hnlt
      rcases ih _ _ _ h with ⟨hb, hall⟩ | ⟨l1, l2, hsplit, hbs, hprev, hallle⟩
      · refine Or.inl ⟨hb, ?_⟩
        intro x hx
        rcases List.mem_cons.mp hx with rfl | hx'
        · exact not_lt.mp hnlt
        · exact hall x hx'
      · refine Or.inr ⟨r :: l1, l2, by rw [hsplit]; rfl, hbs, ?_, ?_⟩
        · intro x hx
          rcases List.mem_cons.mp hx with rfl | hx'
          · exact lt_of_le_of_lt (not_lt.mp hnlt) hbs
          · exact hprev x hx'
        · intro x hx
          rcases List.mem_cons.mp hx with rfl | hx'
          · exact le_of_lt (lt_of_le_of_lt (not_lt.mp hnlt) hbs)
          · exact hallle x hx'

/-- Claim C3 (amended): `choose_best_recording` returns none iff every
candidate in the set scores 0.0 — in particular whenever the set is
empty, but also for non-empty sets all of whose candidates score zero,
because the scan starts from a best score of 0.0 and only a strictly
greater score is ever selected; whenever it returns a candidate, that
candidate is one of the candidates and scores at least as high as every
candidate in the set. -/
theorem claim_C3 (recordings : List Candidate) (title : Str)
    (artist : Option Str) :
    (choose_best_recording recordings title artist = none ↔
      ∀ r ∈ recordings, score title artist r = 0) ∧
    (∀ c, choose_best_recording recordings title artist = some c →
      c ∈ recordings ∧
        ∀ r ∈ recordings, score title artist r ≤ score title artist c) := by
  constructor
  · unfold choose_best_recording
    rw [chooseBestAux_none_iff]
    constructor
    · rintro ⟨-, hall⟩ r hr
      exact le_antisymm (hall r hr) (score_nonneg title artist r)
    · intro hall
      exact ⟨rfl, fun r hr => le_of_eq (hall r hr)⟩
  · intro c hc
    unfold choose_best_recording at hc
    rcases chooseBestAux_spec title artist _ _ _ _ hc with ⟨hb, -⟩ | hright
    · exact absurd hb (by simp)
    · obtain ⟨l1, l2, hsplit, -, -, hall⟩ := hright
      refine ⟨?_, hall⟩
      rw [hsplit]
      simp

theorem similar_eval (a b : Str) (m la lb : Nat)
    (hm : mtotal (lower a) (lower b) = m)
    (hla : (lower a).length = la) (hlb : (lower b).length = lb)
    (h0 : la + lb ≠ 0) :
    similar a b = (2 * m : ℚ) / (la + lb : ℚ) := by
  unfold similar ratioOf
  rw [hla, hlb, hm, if_neg h0]

theorem score_none_eval (t : Str) (r : Candidate) :
    score t none r = 0.6 * similar t r.title := by
  simp [score]

theorem similar_a_b_eval : similar (pyStr "a") (pyStr "b") = 0 := by
  rw [similar_eval (pyStr "a") (pyStr "b") 0 1 1 (by decide) (by decide)
    (by decide) (by decide)]
  norm_num

theorem similar_abc_abc_eval : similar (pyStr "abc") (pyStr "abc") = 1 := by
  rw [similar_eval (pyStr "abc") (pyStr "abc") 3 3 3 (by decide) (by decide)
    (by decide) (by decide)]
  norm_num

theorem similar_a_a_eval : similar (pyStr "a") (pyStr "a") = 1 := by
  rw [similar_eval (pyStr "a") (pyStr "a") 1 1 1 (by decide) (by decide)
    (by decide) (by decide)]
  norm_num

theorem chooseBest_abc_eval :
    choose_best_recording [⟨pyStr "abc", []⟩] (pyStr "abc") none =
      some ⟨pyStr "abc", []⟩ := by
  have hsc : score (pyStr "abc") none ⟨pyStr "abc", []⟩ = 0.6 := by
    rw [score_none_eval]
    show 0.6 * similar (pyStr "abc") (pyStr "abc") = 0.6
    rw [similar_abc_abc_eval]
    norm_num
  simp only [choose_best_recording, chooseBestAux, hsc]
  rw [if_pos (by norm_num)]

/-- Witness for claim C3: a single exactly-matching candidate is returned
and is maximal. -/
theorem claim_C3_witness :
    (⟨pyStr "abc", []⟩ : Candidate) ∈ [(⟨pyStr "abc", []⟩ : Candidate)] ∧
      ∀ r ∈ [(⟨pyStr "abc", []⟩ : Candidate)],
        score (pyStr "abc") none r ≤ score (pyStr "abc") none ⟨pyStr "abc", []⟩ :=
  (claim_C3 [⟨pyStr "abc", []⟩] (pyStr "abc") none).2 ⟨pyStr "abc", []⟩
    chooseBest_abc_eval

/-- Counterexample to claim C3 as stated: a non-empty candidate set whose
only candidate has no character in common with the hypothesis title
scores 0.0, so `choose_best_recording` returns none although the set is
not empty. -/
theorem claim_C3_counterexample :
    choose_best_recording [⟨pyStr "b", []⟩] (pyStr "a") none = none ∧
      ([⟨pyStr "b", []⟩] : List Candidate) ≠ [] := by
  refine ⟨?_, by simp⟩
  have hsc : score (pyStr "a") none ⟨pyStr "b", []⟩ = 0 := by
    rw [score_none_eval]
    show 0.6 * similar (pyStr "a") (pyStr "b") = 0
    rw [similar_a_b_eval]
    norm_num
  simp only [choose_best_recording, chooseBestAux, hsc]
  rw [if_neg (by norm_num)]

/-- Claim C8 (amended): each candidate's score is 0.6 times the title
similarity plus 0.4 times the artist similarity, where the artist term
contributes 0 both when no artist hypothesis is given and when the given
artist hypothesis is the empty string — the source tests the truthiness
of the artist argument, not its presence; similarity is a normalized
case-folded ratio in the interval from 0 to 1; repeated calls return the
same winner; and the returned winner is always the earliest candidate
attaining the maximal score — every candidate listed before it scores
strictly less and every candidate scores at most as much, so a later
equal-scoring candidate never displaces an earlier winner (the
comparison is a strict greater-than). -/
theorem claim_C8 (recordings : List Candidate) (title : Str)
    (c : Candidate) :
    (∀ (r : Candidate) (a : Str), a ≠ [] →
      score title (some a) r =
        0.6 * similar title r.title + 0.4 * similar a (artistNames r)) ∧
    (∀ r : Candidate, score title none r = 0.6 * similar title r.title ∧
      score title (some []) r = 0.6 * similar title r.title) ∧
    (∀ x y : Str, 0 ≤ similar x y ∧ similar x y ≤ 1) ∧
    (∀ a : Option Str, choose_best_recording recordings title a =
      choose_best_recording recordings title a) ∧
    (∀ a : Option Str, choose_best_recording recordings title a = some c →
      ∃ l1 l2, recordings = l1 ++ c :: l2 ∧
        (∀ r ∈ l1, score title a r < score title a c) ∧
        (∀ r ∈ recordings, score title a r ≤ score title a c)) := by
  refine ⟨?_, fun r => ⟨?_, ?_⟩,
    fun x y => ⟨similar_nonneg x y, similar_le_one x y⟩, fun _ => rfl, ?_⟩
  · intro r a ha
    show 0.6 * similar title r.title +
        (if a ≠ [] then 0.4 * similar a (artistNames r) else 0) =
      0.6 * similar title r.title + 0.4 * similar a (artistNames r)
    rw [if_pos ha]
  · show 0.6 * similar title r.title + 0 = 0.6 * similar title r.title
    ring
  · show 0.6 * similar title r.title +
        (if ([] : Str) ≠ [] then 0.4 * similar [] (artistNames r) else 0) =
      0.6 * similar title r.title
    rw [if_neg (by simp)]
    ring
  · intro a hc
    unfold choose_best_recording at hc
    rcases chooseBestAux_spec title a _ _ _ _ hc with ⟨hb, -⟩ | hright
    · exact absurd hb (by simp)
    · obtain ⟨l1, l2, hsplit, -, hprev, hall⟩ := hright
      exact ⟨l1, l2, hsplit, hprev, hall⟩

/-- Counterexample to claim C8 as stated: with the empty-string artist
hypothesis (reachable, since parse_query maps "a by  " to the empty
artist) and a candidate with no artist credits, the program's score is
0 — the truthiness guard skips the artist term — while the claimed
unconditional formula 0.6 times title similarity plus 0.4 times artist
similarity evaluates to 0.4, because two empty strings have similarity
1. -/
theorem claim_C8_counterexample :
    score (pyStr "a") (some []) ⟨pyStr "b", []⟩ = 0 ∧
      0.6 * similar (pyStr "a") (pyStr "b") +
        0.4 * similar [] (artistNames ⟨pyStr "b", []⟩) = 0.4 := by
  constructor
  · have h : score (pyStr "a") (some []) ⟨pyStr "b", []⟩ =
        0.6 * similar (pyStr "a") (pyStr "b") + 0 := by
      show 0.6 * similar (pyStr "a") (pyStr "b") +
          (if ([] : Str) ≠ [] then _ else 0) = _
      rw [if_neg (by simp)]
    rw [h, similar_a_b_eval]
    norm_num
  · have hnames : similar [] (artistNames ⟨pyStr "b", []⟩) = 1 := rfl
    rw [hnames, similar_a_b_eval]
    norm_num

theorem chooseBest_dup_eval :
    choose_best_recording [⟨pyStr "a", []⟩, ⟨pyStr "a", []⟩] (pyStr "a") none =
      some ⟨pyStr "a", []⟩ := by
  have hsc : score (pyStr "a") none ⟨pyStr "a", []⟩ = 0.6 := by
    rw [score_none_eval]
    show 0.6 * similar (pyStr "a") (pyStr "a") = 0.6
    rw [similar_a_a_eval]
    norm_num
  simp only [choose_best_recording, chooseBestAux, hsc]
  rw [if_pos (by norm_num), if_neg (by norm_num)]

/-- Witness for claim C8: with two identically scoring candidates the
winner is the first, with an empty strictly-smaller prefix, and the
formula for a non-empty artist hypothesis is exercised at "q". -/
theorem claim_C8_witness :
    (∃ l1 l2,
      [(⟨pyStr "a", []⟩ : Candidate), ⟨pyStr "a", []⟩] =
          l1 ++ (⟨pyStr "a", []⟩ : Candidate) :: l2 ∧
        (∀ r ∈ l1, score (pyStr "a") none r <
          score (pyStr "a") none ⟨pyStr "a", []⟩) ∧
        (∀ r ∈ [(⟨pyStr "a", []⟩ : Candidate), ⟨pyStr "a", []⟩],
          score (pyStr "a") none r ≤ score (pyStr "a") none ⟨pyStr "a", []⟩)) ∧
      score (pyStr "a") (some (pyStr "q")) ⟨pyStr "a", []⟩ =
        0.6 * similar (pyStr "a") (pyStr "a") +
          0.4 * similar (pyStr "q") (artistNames ⟨pyStr "a", []⟩) := by
  have h := claim_C8 [⟨pyStr "a", []⟩, ⟨pyStr "a", []⟩] (pyStr "a")
    ⟨pyStr "a", []⟩
  exact ⟨h.2.2.2.2 none chooseBest_dup_eval,
    h.1 ⟨pyStr "a", []⟩ (pyStr "q") (by decide)⟩

/-! ## Claims C5, C6 and C7: extract_credits -/

theorem extract_title_eq (rec : RawRecording) :
    (extract_credits rec).title = rec.title := rfl

theorem extract_length_eq (rec : RawRecording) :
    (extract_credits rec).length_ms = rec.length := rfl

theorem extract_mbid_eq (rec : RawRecording) :
    (extract_credits rec).mbid = none := rfl

theorem extract_artists_eq (rec : RawRecording) :
    (extract_credits rec).artists =
      rec.artistCredit.filterMap (fun ac =>
        match ac with
        | some n => if n = [] then none else some n
        | none => none) := rfl

theorem extract_release_title_eq (rec : RawRecording) :
    (extract_credits rec).release_title =
      (if rec.releases.getD [] = [] then none
       else (List.insertionSort relLe (rec.releases.getD [])).head?.bind
         fun r => r.title) := rfl

theorem extract_release_date_eq (rec : RawRecording) :
    (extract_credits rec).release_date =
      (if rec.releases.getD [] = [] then none
       else (List.insertionSort relLe (rec.releases.getD [])).head?.bind
         fun r => r.date) := rfl

theorem extract_credits_eq (rec : RawRecording) :
    (extract_credits rec).credits =
      (effRelations rec).foldl creditStep ⟨[], [], [], []⟩ := rfl

/-- Claim C5: every record produced by `extract_credits` has all four
credit keys bound to lists (this is forced by the `Credits` structure),
its artists list never contains an empty-string or missing entry, and on
an entity whose length, releases and relations are all absent the
function still returns a well-formed record with `none` fields and empty
credit lists — the embedding is a total function, so no input raises. -/
theorem claim_C5 (rec : RawRecording) :
    [] ∉ (extract_credits rec).artists ∧
    (extract_credits rec).title = rec.title ∧
    (rec.length = none ∧ rec.releases.getD [] = [] ∧ effRelations rec = [] →
      (extract_credits rec).length_ms = none ∧
      (extract_credits rec).release_title = none ∧
      (extract_credits rec).release_date = none ∧
      (extract_credits rec).credits = ⟨[], [], [], []⟩) := by
  refine ⟨?_, rfl, ?_⟩
  · intro hmem
    rw [extract_artists_eq] at hmem
    rw [List.mem_filterMap] at hmem
    obtain ⟨ac, -, hac⟩ := hmem
    cases ac with
    | none => exact Option.noConfusion hac
    | some n =>
      dsimp only at hac
      by_cases hn : n = []
      · rw [if_pos hn] at hac
        exact Option.noConfusion hac
      · rw [if_neg hn] at hac
        exact hn (Option.some.inj hac)
  · rintro ⟨hL, hR, hRel⟩
    refine ⟨by rw [extract_length_eq, hL], ?_, ?_, ?_⟩
    · rw [extract_release_title_eq, if_pos hR]
    · rw [extract_release_date_eq, if_pos hR]
    · rw [extract_credits_eq, hRel]
      rfl

/-- Witness for claim C5: the fully absent entity yields none fields and
empty credit lists. -/
theorem claim_C5_witness :
    (extract_credits ⟨none, none, [], none, none, none⟩).length_ms = none ∧
      (extract_credits ⟨none, none, [], none, none, none⟩).release_title = none ∧
      (extract_credits ⟨none, none, [], none, none, none⟩).release_date = none ∧
      (extract_credits ⟨none, none, [], none, none, none⟩).credits =
        ⟨[], [], [], []⟩ :=
  (claim_C5 ⟨none, none, [], none, none, none⟩).2.2 ⟨rfl, rfl, rfl⟩

/-- The contribution one relation makes to the role list selected by the
keyword test `kw`: its resolved name when the test matches, else
nothing. -/
def roleKeep (kw : Str → Bool) (rel : Relation) : Option Str :=
  match resolveName rel with
  | some n => if kw (relTypeL rel) then some n else none
  | none => none

theorem foldl_creditStep_spec :
    ∀ (rels : List Relation) (cs : Credits),
      ((rels.foldl creditStep cs).composer =
          cs.composer ++ rels.filterMap (roleKeep kwComposer)) ∧
        ((rels.foldl creditStep cs).lyricist =
          cs.lyricist ++ rels.filterMap (roleKeep kwLyricist)) ∧
        ((rels.foldl creditStep cs).producer =
          cs.producer ++ rels.filterMap (roleKeep kwProducer)) ∧
        ((rels.foldl creditStep cs).performer =
          cs.performer ++ rels.filterMap (roleKeep kwPerformer)) := by
  intro rels
  induction rels with
  | nil => intro cs; simp
  | cons rel rest ih =>
    intro cs
    rw [List.foldl_cons]
    obtain ⟨ih1, ih2, ih3, ih4⟩ := ih (creditStep cs rel)
    cases hres : resolveName rel with
    | none =>
      have hstep : creditStep cs rel = cs := by simp [creditStep, hres]
      rw [hstep] at ih1 ih2 ih3 ih4
      have hrk : ∀ kw, roleKeep kw rel = none := fun kw => by
        simp [roleKeep, hres]
      rw [hstep]
      refine ⟨?_, ?_, ?_, ?_⟩ <;>
        rw [List.filterMap_cons] <;>
        simp [hrk, ih1, ih2, ih3, ih4]
    | some n =>
      have hrk : ∀ kw, roleKeep kw rel =
          (if kw (relTypeL rel) then some n else none) := fun kw => by
        simp [roleKeep, hres]
      have hc1 : (creditStep cs rel).composer =
          addRole (kwComposer (relTypeL rel)) n cs.composer := by
        simp [creditStep, hres]
      have hc2 : (creditStep cs rel).lyricist =
          addRole (kwLyricist (relTypeL rel)) n cs.lyricist := by
        simp [creditStep, hres]
      have hc3 : (creditStep cs rel).producer =
          addRole (kwProducer (relTypeL rel)) n cs.producer := by
        simp [creditStep, hres]
      have hc4 : (creditStep cs rel).performer =
          addRole (kwPerformer (relTypeL rel)) n cs.performer := by
        simp [creditStep, hres]
      refine ⟨?_, ?_, ?_, ?_⟩
      · rw [ih1, List.filterMap_cons, hrk, hc1]
        by_cases hkw : kwComposer (relTypeL rel) = true <;>
          simp [hkw, addRole]
      · rw [ih2, List.filterMap_cons, hrk, hc2]
        by_cases hkw : kwLyricist (relTypeL rel) = true <;>
          simp [hkw, addRole]
      · rw [ih3, List.filterMap_cons, hrk, hc3]
        by_cases hkw : kwProducer (relTypeL rel) = true <;>
          simp [hkw, addRole]
      · rw [ih4, List.filterMap_cons, hrk, hc4]
        by_cases hkw : kwPerformer (relTypeL rel) = true <;>
          simp [hkw, addRole]

/-- Claim C6 (amended): each role list of the extracted credits is
exactly the relation list filtered through name resolution and that
role's independent keyword test, so one relation whose type matches
several roles lands in every matching list and a relation with no
resolved name contributes nowhere; name resolution gives the nested
artist object absolute priority — when that object is present and
non-empty, the name comes from it alone, the credited-name and target
fields are ignored entirely, and if the object carries no name the
relation is dropped rather than falling through to them (this is where
the original claim's check-the-fields-in-order reading fails); only when
the artist object is absent or empty are the flat credited-name field and
then the generic target field consulted. -/
theorem claim_C6 (rec : RawRecording) :
    ((extract_credits rec).credits.composer =
        (effRelations rec).filterMap (roleKeep kwComposer) ∧
      (extract_credits rec).credits.lyricist =
        (effRelations rec).filterMap (roleKeep kwLyricist) ∧
      (extract_credits rec).credits.producer =
        (effRelations rec).filterMap (roleKeep kwProducer) ∧
      (extract_credits rec).credits.performer =
        (effRelations rec).filterMap (roleKeep kwPerformer)) ∧
    (∀ rel ∈ effRelations rec, ∀ n, resolveName rel = some n →
      (kwComposer (relTypeL rel) = true →
        n ∈ (extract_credits rec).credits.composer) ∧
      (kwProducer (relTypeL rel) = true →
        n ∈ (extract_credits rec).credits.producer)) ∧
    (∀ (rel : Relation) (a : ArtistObj), rel.artist = some a →
      a.nonEmptyDict = true →
      ∀ tc tg : Option Str,
        resolveName { rel with targetCredit := tc, target := tg } =
          resolveName rel) ∧
    (∀ (rel : Relation) (a : ArtistObj), rel.artist = some a →
      a.nonEmptyDict = true → a.name = none → resolveName rel = none) := by
  have hspec := foldl_creditStep_spec (effRelations rec) ⟨[], [], [], []⟩
  rw [← extract_credits_eq] at hspec
  obtain ⟨h1, h2, h3, h4⟩ := hspec
  simp only [List.nil_append] at h1 h2 h3 h4
  refine ⟨⟨h1, h2, h3, h4⟩, ?_, ?_, ?_⟩
  · intro rel hmem n hres
    constructor
    · intro hkw
      rw [h1]
      rw [List.mem_filterMap]
      exact ⟨rel, hmem, by simp [roleKeep, hres, hkw]⟩
    · intro hkw
      rw [h3]
      rw [List.mem_filterMap]
      exact ⟨rel, hmem, by simp [roleKeep, hres, hkw]⟩
  · intro rel a hart hne tc tg
    simp [resolveName, hart, hne]
  · intro rel a hart hne hname
    simp [resolveName, hart, hne, hname]

/-- Witness for claim C6: a relation typed "composer and producer" with a
named artist object lands in both the composer and the producer lists. -/
theorem claim_C6_witness :
    pyStr "Multi" ∈
        (extract_credits ⟨none, none, [],
          none, some [⟨some (pyStr "composer and producer"),
            some ⟨some (pyStr "Multi"), true⟩, none, none⟩],
          none⟩).credits.composer ∧
      pyStr "Multi" ∈
        (extract_credits ⟨none, none, [],
          none, some [⟨some (pyStr "composer and producer"),
            some ⟨some (pyStr "Multi"), true⟩, none, none⟩],
          none⟩).credits.producer := by
  have h := (claim_C6 ⟨none, none, [],
    none, some [⟨some (pyStr "composer and producer"),
      some ⟨some (pyStr "Multi"), true⟩, none, none⟩], none⟩).2.1
    ⟨some (pyStr "composer and producer"),
      some ⟨some (pyStr "Multi"), true⟩, none, none⟩
    (by decide) (pyStr "Multi") (by decide)
  exact ⟨h.1 (by decide), h.2 (by decide)⟩

/-- Counterexample to claim C6 as stated: a relation of type "producer"
whose nested artist object is non-empty but has no name, and whose flat
credited-name field holds "X", is skipped entirely — the claimed priority
fallthrough to the credited-name field never happens, so the producer
list stays empty instead of containing "X". -/
theorem claim_C6_counterexample :
    (extract_credits ⟨none, none, [],
        none, some [⟨some (pyStr "producer"), some ⟨none, true⟩,
          some (pyStr "X"), none⟩],
        none⟩).credits.producer = [] ∧
      (⟨some (pyStr "producer"), some ⟨none, true⟩, some (pyStr "X"),
        none⟩ : Relation).targetCredit = some (pyStr "X") ∧
      kwProducer (relTypeL ⟨some (pyStr "producer"), some ⟨none, true⟩,
        some (pyStr "X"), none⟩) = true := by
  refine ⟨?_, rfl, by decide⟩
  rfl

theorem strLe_refl : ∀ s : Str, strLe s s = true := by
  intro s
  induction s with
  | nil => rfl
  | cons c cs ih =>
    unfold strLe
    rw [if_pos rfl]
    exact ih

theorem strLe_total : ∀ a b : Str, strLe a b = true ∨ strLe b a = true := by
  intro a
  induction a with
  | nil => intro b; exact Or.inl rfl
  | cons x xs ih =>
    intro b
    cases b with
    | nil => exact Or.inr rfl
    | cons y ys =>
      unfold strLe
      by_cases hxy : x = y
      · subst hxy
        rw [if_pos rfl, if_pos rfl]
        exact ih ys
      · rw [if_neg hxy, if_neg (Ne.symm hxy)]
        rcases lt_or_gt_of_ne hxy with h | h
        · exact Or.inl (decide_eq_true h)
        · exact Or.inr (decide_eq_true h)

theorem strLe_trans :
    ∀ a b c : Str, strLe a b = true → strLe b c = true → strLe a c = true := by
  intro a
  induction a with
  | nil => intro b c _ _; rfl
  | cons x xs ih =>
    intro b c h1 h2
    cases b with
    | nil => exact absurd h1 (by simp [strLe])
    | cons y ys =>
      cases c with
      | nil => exact absurd h2 (by simp [strLe])
      | cons z zs =>
        unfold strLe at h1 h2 ⊢
        by_cases hxy : x = y
        · rw [if_pos hxy] at h1
          subst hxy
          by_cases hyz : x = z
          · rw [if_pos hyz] at h2
            rw [if_pos hyz]
            exact ih ys zs h1 h2
          · rw [if_neg hyz] at h2
            rw [if_neg hyz]
            exact h2
        · rw [if_neg hxy] at h1
          have hlt1 : x < y := of_decide_eq_true h1
          by_cases hyz : y = z
          · subst hyz
            rw [if_neg hxy]
            exact h1
          · rw [if_neg hyz] at h2
            have hlt2 : y < z := of_decide_eq_true h2
            have hlt : x < z := lt_trans hlt1 hlt2
            rw [if_neg (ne_of_lt hlt)]
            exact decide_eq_true hlt

instance : IsTotal Release relLe :=
  ⟨fun r1 r2 => strLe_total (relKey r1) (relKey r2)⟩

instance : IsTrans Release relLe := ⟨fun _ _ _ => strLe_trans _ _ _⟩

/-- Decimal digit test. -/
def isDigit (c : Char) : Bool := decide ('0' ≤ c) && decide (c ≤ '9')

/-- A real catalog date string: a four-digit year, optionally followed by
a hyphen and a month whose first digit is 0 or 1 (then anything, covering
"YYYY-MM" and "YYYY-MM-DD"). -/
def isRealDate (d : Str) : Bool :=
  match d with
  | [y1, y2, y3, y4] => isDigit y1 && isDigit y2 && isDigit y3 && isDigit y4
  | y1 :: y2 :: y3 :: y4 :: '-' :: m1 :: _ =>
    isDigit y1 && isDigit y2 && isDigit y3 && isDigit y4 &&
      (m1 = '0' || m1 = '1')
  | _ => false

theorem digit_lt_nine_aux {c : Char} (h : isDigit c = true) {r1 r2 : Str}
    (hrec : strLt r1 r2 = true) : strLt (c :: r1) ('9' :: r2) = true := by
  unfold strLt
  by_cases hc : c = '9'
  · rw [if_pos hc]
    exact hrec
  · rw [if_neg hc]
    have hle : c ≤ '9' := by
      unfold isDigit at h
      rw [Bool.and_eq_true] at h
      exact of_decide_eq_true h.2
    exact decide_eq_true (lt_of_le_of_ne hle hc)

theorem realDate_lt_sentinel :
    ∀ d : Str, isRealDate d = true → strLt d (pyStr "9999-99-99") = true := by
  intro d h
  unfold isRealDate at h
  split at h
  · rename_i y1 y2 y3 y4
    simp only [Bool.and_eq_true] at h
    obtain ⟨⟨⟨h1, h2⟩, h3⟩, h4⟩ := h
    show strLt [y1, y2, y3, y4]
      ('9' :: '9' :: '9' :: '9' :: pyStr "-99-99") = true
    exact digit_lt_nine_aux h1 (digit_lt_nine_aux h2 (digit_lt_nine_aux h3
      (digit_lt_nine_aux h4 rfl)))
  · rename_i y1 y2 y3 y4 m1 rest
    simp only [Bool.and_eq_true, Bool.or_eq_true, decide_eq_true_eq] at h
    obtain ⟨⟨⟨⟨h1, h2⟩, h3⟩, h4⟩, hm⟩ := h
    show strLt (y1 :: y2 :: y3 :: y4 :: '-' :: m1 :: rest)
      ('9' :: '9' :: '9' :: '9' :: '-' :: '9' :: pyStr "9-99") = true
    refine digit_lt_nine_aux h1 (digit_lt_nine_aux h2 (digit_lt_nine_aux h3
      (digit_lt_nine_aux h4 ?_)))
    unfold strLt
    rw [if_pos rfl]
    unfold strLt
    rcases hm with rfl | rfl
    · rw [if_neg (by decide)]
      decide
    · rw [if_neg (by decide)]
      decide
  · exact absurd h (by decide)

/-- Claim C7: whenever the releases list of the raw entity is non-empty,
`extract_credits` takes release_title and release_date from a release of
the list whose key — the date string, or the sentinel "9999-99-99" when
the date is missing or empty — is lexicographically smallest among all
the releases; the sentinel sorts strictly after every real date string;
and when the releases list is empty both fields are none. -/
theorem claim_C7 (rec : RawRecording) :
    (rec.releases.getD [] ≠ [] →
      ∃ r ∈ rec.releases.getD [],
        (extract_credits rec).release_title = r.title ∧
        (extract_credits rec).release_date = r.date ∧
        ∀ r' ∈ rec.releases.getD [], strLe (relKey r) (relKey r') = true) ∧
    (rec.releases.getD [] = [] →
      (extract_credits rec).release_title = none ∧
      (extract_credits rec).release_date = none) ∧
    (∀ d : Str, isRealDate d = true →
      strLt d (pyStr "9999-99-99") = true) ∧
    (∀ r : Release, r.date = none ∨ r.date = some [] →
      relKey r = pyStr "9999-99-99") := by
  refine ⟨?_, ?_, realDate_lt_sentinel, ?_⟩
  · intro hne
    cases hs : List.insertionSort relLe (rec.releases.getD []) with
    | nil =>
      exfalso
      have hperm := List.perm_insertionSort relLe (rec.releases.getD [])
      rw [hs] at hperm
      exact hne (hperm.nil_eq).symm
    | cons r0 tail =>
      have hsorted := List.sorted_insertionSort relLe (rec.releases.getD [])
      rw [hs] at hsorted
      have hperm := List.perm_insertionSort relLe (rec.releases.getD [])
      rw [hs] at hperm
      refine ⟨r0, ?_, ?_, ?_, ?_⟩
      · exact hperm.mem_iff.mp (List.mem_cons_self r0 tail)
      · rw [extract_release_title_eq, if_neg hne, hs]
        rfl
      · rw [extract_release_date_eq, if_neg hne, hs]
        rfl
      · intro r' hr'
        have hr'' : r' ∈ r0 :: tail := hperm.mem_iff.mpr hr'
        rcases List.mem_cons.mp hr'' with rfl | htail
        · exact strLe_refl _
        · exact List.rel_of_sorted_cons hsorted r' htail
  · intro hempty
    rw [extract_release_title_eq, extract_release_date_eq, if_pos hempty,
      if_pos hempty]
    exact ⟨rfl, rfl⟩
  · intro r hr
    unfold relKey
    rcases hr with hr | hr <;> simp [hr]

/-- The raw entity used to witness claim C7: two releases, one dated
1999 and one undated. -/
def recC7 : RawRecording :=
  ⟨none, none, [],
    some [⟨some (pyStr "B"), some (pyStr "1999")⟩, ⟨some (pyStr "A"), none⟩],
    none, none⟩

/-- Witness for claim C7: on `recC7` the selected release is a member of
the list with the smallest key, and the sentinel dominates the real date
"1999". -/
theorem claim_C7_witness :
    (∃ r ∈ recC7.releases.getD [],
      (extract_credits recC7).release_title = r.title ∧
      (extract_credits recC7).release_date = r.date ∧
      ∀ r' ∈ recC7.releases.getD [], strLe (relKey r) (relKey r') = true) ∧
      strLt (pyStr "1999") (pyStr "9999-99-99") = true := by
  constructor
  · exact (claim_C7 recC7).1 (by decide)
  · exact (claim_C7 recC7).2.2.1 (pyStr "1999") (by decide)

/-! ## Claim C4: the context builder -/

theorem mem_guard {α : Type} {p : Prop} [Decidable p] {a b : α} :
    a ∈ (if p then [b] else []) ↔ p ∧ a = b := by
  split <;> simp_all

theorem mem_build_cases {info : Info} {l : Str} :
    l ∈ build_context_from_info info ↔
      l = titleLine info ∨
      (info.artists ≠ [] ∧ l = artistLine info) ∨
      ((truthyS info.release_title || truthyS info.release_date) = true ∧
        l = releaseLine info) ∨
      (truthyN info.length_ms = true ∧ l = durationLine info) ∨
      (info.credits.composer ≠ [] ∧
        l = roleLine (pyStr "Composer: ") info.credits.composer) ∨
      (info.credits.lyricist ≠ [] ∧
        l = roleLine (pyStr "Lyricist: ") info.credits.lyricist) ∨
      (info.credits.producer ≠ [] ∧
        l = roleLine (pyStr "Producer: ") info.credits.producer) ∨
      (info.credits.performer ≠ [] ∧
        l = roleLine (pyStr "Performer: ") info.credits.performer) ∨
      (truthyS info.mbid = true ∧ l = mbidLine info) := by
  unfold build_context_from_info
  simp only [List.mem_append, List.mem_singleton, mem_guard]
  tauto

theorem not_prefix_head {c d : Char} {l1 l2 : Str} (h : c ≠ d) :
    ¬(c :: l1 <+: d :: l2) :=
  fun hp => h (List.cons_prefix_cons.mp hp).1

theorem not_prefix_second {c e f : Char} {l1 l2 : Str} (h : e ≠ f) :
    ¬(c :: e :: l1 <+: c :: f :: l2) :=
  fun hp => h (List.cons_prefix_cons.mp (List.cons_prefix_cons.mp hp).2).1

theorem truthyS_iff {o : Option Str} :
    truthyS o = true ↔ ∃ s, o = some s ∧ s ≠ [] := by
  cases o <;> simp [truthyS]

theorem pyTitleOf_ne_nil (info : Info) : pyTitleOf info ≠ [] := by
  unfold pyTitleOf
  cases info.title with
  | none => simp [pyStr]
  | some s =>
    dsimp only
    by_cases hs : s = []
    · rw [if_pos hs]
      simp [pyStr]
    · rw [if_neg hs]
      exact hs

theorem joinSep_ne_nil (sep : Str) (xs : List Str) (hxs : xs ≠ [])
    (hall : ∀ x ∈ xs, x ≠ []) : joinSep sep xs ≠ [] := by
  cases xs with
  | nil => exact absurd rfl hxs
  | cons x rest =>
    cases rest with
    | nil => exact hall x (by simp)
    | cons y t =>
      have hx : x ≠ [] := hall x (by simp)
      unfold joinSep
      simp [hx]

theorem dedupeKeep_mem_ne :
    ∀ (vals seen : List Str) (x : Str), x ∈ dedupeKeep vals seen → x ≠ [] := by
  intro vals
  induction vals with
  | nil => intro seen x hx; simp [dedupeKeep] at hx
  | cons v vs ih =>
    intro seen x hx
    unfold dedupeKeep at hx
    split at hx
    · rename_i hcond
      rcases List.mem_cons.mp hx with rfl | hx'
      · exact hcond.1
      · exact ih _ x hx'
    · exact ih _ x hx

theorem dedupeKeep_ne_nil {vals : List Str} (hne : vals ≠ [])
    (hno : [] ∉ vals) : dedupeKeep vals [] ≠ [] := by
  cases vals with
  | nil => exact absurd rfl hne
  | cons v vs =>
    have hv : v ≠ [] := fun heq => hno (heq ▸ List.mem_cons_self v vs)
    unfold dedupeKeep
    rw [if_pos ⟨hv, by simp⟩]
    simp

theorem roleLine_payload_ne {vals : List Str} (h : vals ≠ [])
    (hno : [] ∉ vals) : joinSep (pyStr ", ") (dedupeKeep vals []) ≠ [] :=
  joinSep_ne_nil _ _ (dedupeKeep_ne_nil h hno)
    (fun x hx => dedupeKeep_mem_ne _ _ x hx)

theorem natRepr_ne_nil (n : Nat) : natRepr n ≠ [] := by
  unfold natRepr natDigitsAux
  by_cases hn : n < 10
  · rw [if_pos hn]
    simp
  · rw [if_neg hn]
    simp

theorem releaseLine_shape (info : Info)
    (h : (truthyS info.release_title || truthyS info.release_date) = true) :
    ∃ payload, releaseLine info = pyStr "Release: " ++ payload ∧
      payload ≠ [] := by
  by_cases hrd : truthyS info.release_date = true
  · obtain ⟨s, hs, hsne⟩ := truthyS_iff.mp hrd
    refine ⟨_, rfl, ?_⟩
    have hdate : (if truthyS info.release_date = true then
        info.release_date.getD [] else []) = info.release_date.getD [] :=
      if_pos hrd
    rw [hdate]
    have hdne : info.release_date.getD [] ≠ [] := by
      rw [hs]
      simpa using hsne
    rw [if_pos hdne]
    intro hcon
    exact absurd (List.append_eq_nil.mp hcon).2 (by decide)
  · have hrt : truthyS info.release_title = true := by
      rw [Bool.or_eq_true] at h
      rcases h with h | h
      · exact h
      · exact absurd h hrd
    obtain ⟨s, hs, hsne⟩ := truthyS_iff.mp hrt
    refine ⟨_, rfl, ?_⟩
    have hdatecond : ¬((if truthyS info.release_date = true then
        info.release_date.getD [] else []) ≠ []) := by
      rw [if_neg hrd]
      simp
    rw [if_neg hdatecond, if_pos hrt, hs]
    simpa using hsne

/-- Claim C4 (amended): for every normalized record whose artist list and
credit lists contain no empty strings, the fact sheet built by
`build_context_from_info` always starts with a title line — using the
placeholder "Unknown title" when the title field is missing or empty,
which is the one exception to the omission rule the original claim
overlooked — and every line consists of a known field tag followed by a
non-empty payload; every other field with no data is omitted entirely:
when the artist list is empty no artist line appears, when both release
fields are falsy no release line appears, when the duration is falsy no
duration line appears, when a credit role list is empty no line for that
role appears, and when the identifier is falsy no identifier line
appears.  Conversely one line per known field is emitted: whenever the
artist list, a release field, the duration, a credit role list or the
identifier does carry data, the corresponding line is in the sheet. -/
theorem claim_C4 (info : Info)
    (hart : [] ∉ info.artists)
    (hc1 : [] ∉ info.credits.composer) (hc2 : [] ∉ info.credits.lyricist)
    (hc3 : [] ∉ info.credits.producer) (hc4 : [] ∉ info.credits.performer) :
    ((build_context_from_info info).head? = some (titleLine info)) ∧
    (∀ l ∈ build_context_from_info info, l ≠ []) ∧
    (∀ l ∈ build_context_from_info info,
      ∃ tag payload, l = tag ++ payload ∧ payload ≠ [] ∧
        tag ∈ [pyStr "Title: ", pyStr "Artist(s): ", pyStr "Release: ",
          pyStr "Duration_seconds: ", pyStr "Composer: ", pyStr "Lyricist: ",
          pyStr "Producer: ", pyStr "Performer: ", pyStr "MBID: "]) ∧
    (info.artists = [] → ∀ l ∈ build_context_from_info info,
      ¬(pyStr "Artist(s): " <+: l)) ∧
    (truthyS info.release_title = false → truthyS info.release_date = false →
      ∀ l ∈ build_context_from_info info, ¬(pyStr "Release: " <+: l)) ∧
    (truthyN info.length_ms = false → ∀ l ∈ build_context_from_info info,
      ¬(pyStr "Duration_seconds: " <+: l)) ∧
    (info.credits.composer = [] → ∀ l ∈ build_context_from_info info,
      ¬(pyStr "Composer: " <+: l)) ∧
    (info.credits.lyricist = [] → ∀ l ∈ build_context_from_info info,
      ¬(pyStr "Lyricist: " <+: l)) ∧
    (info.credits.producer = [] → ∀ l ∈ build_context_from_info info,
      ¬(pyStr "Producer: " <+: l)) ∧
    (info.credits.performer = [] → ∀ l ∈ build_context_from_info info,
      ¬(pyStr "Performer: " <+: l)) ∧
    (truthyS info.mbid = false → ∀ l ∈ build_context_from_info info,
      ¬(pyStr "MBID: " <+: l)) ∧
    (info.artists ≠ [] → artistLine info ∈ build_context_from_info info) ∧
    ((truthyS info.release_title || truthyS info.release_date) = true →
      releaseLine info ∈ build_context_from_info info) ∧
    (truthyN info.length_ms = true →
      durationLine info ∈ build_context_from_info info) ∧
    (info.credits.composer ≠ [] →
      roleLine (pyStr "Composer: ") info.credits.composer ∈
        build_context_from_info info) ∧
    (info.credits.lyricist ≠ [] →
      roleLine (pyStr "Lyricist: ") info.credits.lyricist ∈
        build_context_from_info info) ∧
    (info.credits.producer ≠ [] →
      roleLine (pyStr "Producer: ") info.credits.producer ∈
        build_context_from_info info) ∧
    (info.credits.performer ≠ [] →
      roleLine (pyStr "Performer: ") info.credits.performer ∈
        build_context_from_info info) ∧
    (truthyS info.mbid = true →
      mbidLine info ∈ build_context_from_info info) := by
  refine ⟨rfl, ?_, ?_, ?_, ?_, ?_, ?_, ?_, ?_, ?_, ?_, ?_, ?_, ?_, ?_, ?_,
    ?_, ?_, ?_⟩
  · intro l hl
    rw [mem_build_cases] at hl
    rcases hl with rfl | ⟨h, rfl⟩ | ⟨h, rfl⟩ | ⟨h, rfl⟩ | ⟨h, rfl⟩ |
      ⟨h, rfl⟩ | ⟨h, rfl⟩ | ⟨h, rfl⟩ | ⟨h, rfl⟩ <;>
      exact List.cons_ne_nil _ _
  · intro l hl
    rw [mem_build_cases] at hl
    rcases hl with rfl | ⟨h, rfl⟩ | ⟨h, rfl⟩ | ⟨h, rfl⟩ | ⟨h, rfl⟩ |
      ⟨h, rfl⟩ | ⟨h, rfl⟩ | ⟨h, rfl⟩ | ⟨h, rfl⟩
    · exact ⟨pyStr "Title: ", pyTitleOf info, rfl, pyTitleOf_ne_nil info,
        by simp⟩
    · exact ⟨pyStr "Artist(s): ", joinSep (pyStr ", ") info.artists, rfl,
        joinSep_ne_nil _ _ h (fun x hx he => hart (he ▸ hx)), by simp⟩
    · obtain ⟨p, hp, hpne⟩ := releaseLine_shape info h
      exact ⟨pyStr "Release: ", p, hp, hpne, by simp⟩
    · exact ⟨pyStr "Duration_seconds: ", natRepr (info.length_ms.getD 0 / 1000),
        rfl, natRepr_ne_nil _, by simp⟩
    · exact ⟨pyStr "Composer: ", _, rfl, roleLine_payload_ne h hc1, by simp⟩
    · exact ⟨pyStr "Lyricist: ", _, rfl, roleLine_payload_ne h hc2, by simp⟩
    · exact ⟨pyStr "Producer: ", _, rfl, roleLine_payload_ne h hc3, by simp⟩
    · exact ⟨pyStr "Performer: ", _, rfl, roleLine_payload_ne h hc4, by simp⟩
    · obtain ⟨s, hs, hsne⟩ := truthyS_iff.mp h
      refine ⟨pyStr "MBID: ", info.mbid.getD [], rfl, ?_, by simp⟩
      rw [hs]
      simpa using hsne
  · intro hA l hl
    rw [mem_build_cases] at hl
    rcases hl with rfl | ⟨h, rfl⟩ | ⟨h, rfl⟩ | ⟨h, rfl⟩ | ⟨h, rfl⟩ |
      ⟨h, rfl⟩ | ⟨h, rfl⟩ | ⟨h, rfl⟩ | ⟨h, rfl⟩ <;>
      first
        | exact absurd hA h
        | exact not_prefix_head (by decide)
  · intro hrt hrd l hl
    rw [mem_build_cases] at hl
    rcases hl with rfl | ⟨h, rfl⟩ | ⟨h, rfl⟩ | ⟨h, rfl⟩ | ⟨h, rfl⟩ |
      ⟨h, rfl⟩ | ⟨h, rfl⟩ | ⟨h, rfl⟩ | ⟨h, rfl⟩ <;>
      first
        | exact absurd h (by rw [hrt, hrd]; decide)
        | exact not_prefix_head (by decide)
  · intro hd l hl
    rw [mem_build_cases] at hl
    rcases hl with rfl | ⟨h, rfl⟩ | ⟨h, rfl⟩ | ⟨h, rfl⟩ | ⟨h, rfl⟩ |
      ⟨h, rfl⟩ | ⟨h, rfl⟩ | ⟨h, rfl⟩ | ⟨h, rfl⟩ <;>
      first
        | exact absurd h (by rw [hd]; decide)
        | exact not_prefix_head (by decide)
  · intro hC l hl
    rw [mem_build_cases] at hl
    rcases hl with rfl | ⟨h, rfl⟩ | ⟨h, rfl⟩ | ⟨h, rfl⟩ | ⟨h, rfl⟩ |
      ⟨h, rfl⟩ | ⟨h, rfl⟩ | ⟨h, rfl⟩ | ⟨h, rfl⟩ <;>
      first
        | exact absurd hC h
        | exact not_prefix_head (by decide)
  · intro hL l hl
    rw [mem_build_cases] at hl
    rcases hl with rfl | ⟨h, rfl⟩ | ⟨h, rfl⟩ | ⟨h, rfl⟩ | ⟨h, rfl⟩ |
      ⟨h, rfl⟩ | ⟨h, rfl⟩ | ⟨h, rfl⟩ | ⟨h, rfl⟩ <;>
      first
        | exact absurd hL h
        | exact not_prefix_head (by decide)
  · intro hP l hl
    rw [mem_build_cases] at hl
    rcases hl with rfl | ⟨h, rfl⟩ | ⟨h, rfl⟩ | ⟨h, rfl⟩ | ⟨h, rfl⟩ |
      ⟨h, rfl⟩ | ⟨h, rfl⟩ | ⟨h, rfl⟩ | ⟨h, rfl⟩ <;>
      first
        | exact absurd hP h
        | exact not_prefix_head (by decide)
        | exact not_prefix_second (by decide)
  · intro hPf l hl
    rw [mem_build_cases] at hl
    rcases hl with rfl | ⟨h, rfl⟩ | ⟨h, rfl⟩ | ⟨h, rfl⟩ | ⟨h, rfl⟩ |
      ⟨h, rfl⟩ | ⟨h, rfl⟩ | ⟨h, rfl⟩ | ⟨h, rfl⟩ <;>
      first
        | exact absurd hPf h
        | exact not_prefix_head (by decide)
        | exact not_prefix_second (by decide)
  · intro hM l hl
    rw [mem_build_cases] at hl
    rcases hl with rfl | ⟨h, rfl⟩ | ⟨h, rfl⟩ | ⟨h, rfl⟩ | ⟨h, rfl⟩ |
      ⟨h, rfl⟩ | ⟨h, rfl⟩ | ⟨h, rfl⟩ | ⟨h, rfl⟩ <;>
      first
        | exact absurd h (by rw [hM]; decide)
        | exact not_prefix_head (by decide)
  · intro h
    rw [mem_build_cases]
    exact Or.inr (Or.inl ⟨h, rfl⟩)
  · intro h
    rw [mem_build_cases]
    exact Or.inr (Or.inr (Or.inl ⟨h, rfl⟩))
  · intro h
    rw [mem_build_cases]
    exact Or.inr (Or.inr (Or.inr (Or.inl ⟨h, rfl⟩)))
  · intro h
    rw [mem_build_cases]
    exact Or.inr (Or.inr (Or.inr (Or.inr (Or.inl ⟨h, rfl⟩))))
  · intro h
    rw [mem_build_cases]
    exact Or.inr (Or.inr (Or.inr (Or.inr (Or.inr (Or.inl ⟨h, rfl⟩)))))
  · intro h
    rw [mem_build_cases]
    exact Or.inr (Or.inr (Or.inr (Or.inr (Or.inr (Or.inr
      (Or.inl ⟨h, rfl⟩))))))
  · intro h
    rw [mem_build_cases]
    exact Or.inr (Or.inr (Or.inr (Or.inr (Or.inr (Or.inr (Or.inr
      (Or.inl ⟨h, rfl⟩)))))))
  · intro h
    rw [mem_build_cases]
    exact Or.inr (Or.inr (Or.inr (Or.inr (Or.inr (Or.inr (Or.inr
      (Or.inr ⟨h, rfl⟩)))))))

/-- The record used to witness claim C4: a title, one artist, one
producer, no length, no release, no identifier. -/
def infoC4 : Info :=
  ⟨some (pyStr "Song"), none, [pyStr "Queen"], none, none,
    ⟨[], [], [pyStr "Roy"], []⟩, none⟩

/-- Witness for claim C4: the sheet for `infoC4` starts with its title
line, contains no duration line (the duration being absent), and does
contain the artist and producer lines (those fields carrying data). -/
theorem claim_C4_witness :
    (build_context_from_info infoC4).head? = some (titleLine infoC4) ∧
      (∀ l ∈ build_context_from_info infoC4,
        ¬(pyStr "Duration_seconds: " <+: l)) ∧
      artistLine infoC4 ∈ build_context_from_info infoC4 ∧
      roleLine (pyStr "Producer: ") infoC4.credits.producer ∈
        build_context_from_info infoC4 := by
  obtain ⟨h1, -, -, -, -, h6, -, -, -, -, -, h12, -, -, -, -, h17, -, -⟩ :=
    claim_C4 infoC4 (by decide) (by decide) (by decide) (by decide) (by decide)
  exact ⟨h1, h6 rfl, h12 (by decide), h17 (by decide)⟩

/-- Counterexample to claim C4 as stated: a record with no title at all
still gets a line for the title field — the placeholder line
"Title: Unknown title" — so the builder does emit a placeholder line for
a missing field. -/
theorem claim_C4_counterexample :
    build_context_from_info
        ⟨none, none, [], none, none, ⟨[], [], [], []⟩, none⟩ =
        [pyStr "Title: Unknown title"] ∧
      (⟨none, none, [], none, none, ⟨[], [], [], []⟩, none⟩ : Info).title =
        none := by
  exact ⟨rfl, rfl⟩

end MusicBrain
